import Mathlib

/-!
Shallow embedding of the document ingestion / retrieval pipeline of this
repository (a Next.js RAG application), together with proofs settling the
frozen claims about it.

Conventions of the embedding:
* JavaScript strings are modelled as `List Char` (rendered output strings as
  `String`); JavaScript numbers that only ever hold integers (cursor
  positions, lengths, indices) are modelled as `Int`/`Nat` (they stay far
  below 2^53, where doubles are exact); embedding vector components are
  modelled as `ℚ` (exact-arithmetic model of the floating-point computation).
* The single fractional constant in the source, `maxChunkSize * 0.5`, is
  handled by doubling both sides of the comparison it appears in, which is
  exact for integer operands.
* Fallible external effects (database inserts, the pgvector RPC, the NFKC
  normalizer of the runtime) are injected as explicit parameters, so that
  every execution path of the source is a value of a total function.
-/

set_option maxRecDepth 8192

namespace DocChat

/-! ### JavaScript primitives shared by several source functions -/

/-- The character class `\s` of a JavaScript regular expression (also the set
stripped by `String.prototype.trim`): ASCII whitespace, NBSP, BOM, the Unicode
space separators and line separators. -/
def jsWhitespace (c : Char) : Bool :=
  c = ' ' ∨ c = '\t' ∨ c = '\n' ∨ c = '\r' ∨
  c.toNat = 0x0b ∨ c.toNat = 0x0c ∨ c.toNat = 0xa0 ∨ c.toNat = 0x1680 ∨
  (0x2000 ≤ c.toNat ∧ c.toNat ≤ 0x200a) ∨
  c.toNat = 0x2028 ∨ c.toNat = 0x2029 ∨ c.toNat = 0x202f ∨
  c.toNat = 0x205f ∨ c.toNat = 0x3000 ∨ c.toNat = 0xfeff

/-- `String.prototype.trim`: drop leading and trailing whitespace. -/
def jsTrim (l : List Char) : List Char :=
  ((l.dropWhile jsWhitespace).reverse.dropWhile jsWhitespace).reverse

/-- The decimal digit class `\d` (`[0-9]`). -/
def isDigit (c : Char) : Bool := '0' ≤ c ∧ c ≤ '9'

/-! ### `normalizeText` (src/app/api/process-document/route.ts, lines 7–26)

The function is a pipeline of regex replacements.  Each replacement is
modelled by a left-to-right scanner that attempts the (deterministic,
backtracking-free — see the individual comments) match at every position and
restarts after the replaced text, exactly as a global `String.replace`
proceeds. -/

/-- Scanner for `text.replace(/\s+/g, ' ')`; the flag records whether the
scanner is inside a whitespace run whose single `' '` replacement has already
been emitted. -/
def collapseWSAux : Bool → List Char → List Char
  | _, [] => []
  | inRun, c :: cs =>
    if jsWhitespace c then
      if inRun then collapseWSAux true cs else ' ' :: collapseWSAux true cs
    else c :: collapseWSAux false cs

/-- `text.replace(/\s+/g, ' ')`: every maximal run of whitespace becomes a
single space. -/
def collapseWS (l : List Char) : List Char := collapseWSAux false l

/-- Whitespace other than a newline (the `\s*` pieces of the blank-line regex
are modelled over this class; see `matchBlankRun`). -/
def nonNLWS (c : Char) : Bool := jsWhitespace c ∧ c ≠ '\n'

/-- One match attempt of `/\n\s*\n\s*\n+/` directly after its leading `'\n'`
(already consumed by `collapseBlank`): returns the input remaining after the
whole match, or `none`.  Inside `normalizeText` the preceding `collapseWS`
pass has already replaced every whitespace run — newlines included — by a
single space, so this matcher only ever receives newline-free input, on which
the regex cannot match at all; the `\s*` pieces are therefore modelled
greedily over non-newline whitespace, which agrees with the regex on every
input the pipeline can produce. -/
def matchBlankRun (cs : List Char) : Option (List Char) :=
  match cs.dropWhile nonNLWS with
  | [] => none
  | a :: r2 =>
    if a = '\n' then
      match r2.dropWhile nonNLWS with
      | [] => none
      | b :: r3 =>
        if b = '\n' then some (r3.dropWhile (fun c => c = '\n')) else none
    else none

theorem matchBlankRun_length_le (cs rest : List Char)
    (h : matchBlankRun cs = some rest) : rest.length ≤ cs.length := by
  have h1 := (List.dropWhile_sublist (l := cs) nonNLWS).length_le
  unfold matchBlankRun at h
  split at h
  · simp at h
  · rename_i a r2 e1
    rw [e1] at h1
    split at h
    · have h2 := (List.dropWhile_sublist (l := r2) nonNLWS).length_le
      split at h
      · simp at h
      · rename_i b r3 e2
        rw [e2] at h2
        split at h
        · have h3 := (List.dropWhile_sublist (l := r3) (fun c => c = '\n')).length_le
          cases h
          simp only [List.length_cons] at h1 h2
          omega
        · simp at h
    · simp at h

/-- `text.replace(/\n\s*\n\s*\n+/g, '\n\n')`, as a left-to-right scan.  The
recursion is driven by a character-count fuel so that it is structural (every
step consumes at least one character, see `matchBlankRun_length_le`, so the
fuel used by the wrapper `collapseBlank` below never runs out). -/
def collapseBlankF : Nat → List Char → List Char
  | _, [] => []
  | 0, l => l
  | fuel + 1, c :: cs =>
    if c = '\n' then
      match matchBlankRun cs with
      | some rest => '\n' :: '\n' :: collapseBlankF fuel rest
      | none => c :: collapseBlankF fuel cs
    else c :: collapseBlankF fuel cs

/-- `text.replace(/\n\s*\n\s*\n+/g, '\n\n')`. -/
def collapseBlank (l : List Char) : List Char := collapseBlankF l.length l

/-- One match attempt of `/Page \d+/i` at the head of the input: the four
letters case-insensitively, a literal space, then a maximal digit run (the
greedy `\d+`; nothing follows it in the pattern, so greediness is exact).
Returns the input remaining after the match. -/
def matchPage (l : List Char) : Option (List Char) :=
  match l with
  | p :: a :: g :: e :: sp :: rest =>
    if (p = 'P' ∨ p = 'p') ∧ (a = 'A' ∨ a = 'a') ∧ (g = 'G' ∨ g = 'g') ∧
       (e = 'E' ∨ e = 'e') ∧ sp = ' ' then
      match rest with
      | [] => none
      | d :: _ => if isDigit d then some (rest.dropWhile isDigit) else none
    else none
  | _ => none

theorem matchPage_length_lt (l rest : List Char) (h : matchPage l = some rest) :
    rest.length < l.length := by
  unfold matchPage at h
  split at h
  · split at h
    · split at h
      · simp at h
      · split at h
        · rename_i p a g e sp rest1 hc d tl hd
          cases h
          have := (List.dropWhile_sublist (l := d :: tl) isDigit).length_le
          simp only [List.length_cons] at *
          omega
        · simp at h
    · simp at h
  · simp at h

/-- `text.replace(/Page \d+/gi, '')` (page-number artifact removal), as a
fuel-driven scan; every step strictly shrinks the input
(`matchPage_length_lt`), so the wrapper's fuel never runs out. -/
def removePageNumsF : Nat → List Char → List Char
  | _, [] => []
  | 0, l => l
  | fuel + 1, c :: cs =>
    match matchPage (c :: cs) with
    | some rest => removePageNumsF fuel rest
    | none => c :: removePageNumsF fuel cs

/-- `text.replace(/Page \d+/gi, '')`. -/
def removePageNums (l : List Char) : List Char := removePageNumsF l.length l

/-- One match attempt of `/\d+\s*\/\s*\d+/` at the head of the input: a
maximal digit run, optional whitespace, a slash, optional whitespace, a
maximal digit run.  (Backtracking cannot change the outcome: shrinking `\d+`
leaves a digit where `\s*\/` must start, and shrinking `\s*` leaves
whitespace where `/` must be, so maximal munch is exact.) -/
def matchFrac (l : List Char) : Option (List Char) :=
  match l with
  | [] => none
  | d :: rest =>
    if isDigit d then
      match (rest.dropWhile isDigit).dropWhile jsWhitespace with
      | [] => none
      | s :: r3 =>
        if s = '/' then
          match r3.dropWhile jsWhitespace with
          | [] => none
          | d2 :: _ =>
            if isDigit d2 then
              some ((r3.dropWhile jsWhitespace).dropWhile isDigit)
            else none
        else none
    else none

theorem matchFrac_length_lt (l rest : List Char) (h : matchFrac l = some rest) :
    rest.length < l.length := by
  unfold matchFrac at h
  split at h
  · simp at h
  · rename_i d rest0
    split at h
    · have h1 := (List.dropWhile_sublist (l := rest0) isDigit).length_le
      have h2 := (List.dropWhile_sublist (l := rest0.dropWhile isDigit) jsWhitespace).length_le
      split at h
      · simp at h
      · rename_i s r3 e1
        rw [e1] at h2
        split at h
        · have h3 := (List.dropWhile_sublist (l := r3) jsWhitespace).length_le
          split at h
          · simp at h
          · rename_i d2 r4 e2
            rw [e2] at h3
            split at h
            · cases h
              have h4 := (List.dropWhile_sublist
                (l := r3.dropWhile jsWhitespace) isDigit).length_le
              have h5 : (r3.dropWhile jsWhitespace).length = r4.length + 1 := by
                rw [e2]; simp
              simp only [List.length_cons] at *
              omega
            · simp at h
        · simp at h
    · simp at h

/-- `text.replace(/\d+\s*\/\s*\d+/g, '')` (page counters like `1 / 10`), as a
fuel-driven scan; every step strictly shrinks the input
(`matchFrac_length_lt`), so the wrapper's fuel never runs out. -/
def removeFracsF : Nat → List Char → List Char
  | _, [] => []
  | 0, l => l
  | fuel + 1, c :: cs =>
    match matchFrac (c :: cs) with
    | some rest => removeFracsF fuel rest
    | none => c :: removeFracsF fuel cs

/-- `text.replace(/\d+\s*\/\s*\d+/g, '')`. -/
def removeFracs (l : List Char) : List Char := removeFracsF l.length l

/-- The character class `[A-Z\s]` of the header-stripping regex. -/
def capsOrWS (c : Char) : Bool := ('A' ≤ c ∧ c ≤ 'Z') ∨ jsWhitespace c

/-- `text.replace(/^[A-Z\s]{3,50}$/gm, '')` (all-caps header lines).  Every
input reaching this pass inside `normalizeText` is newline-free (the
`collapseWS` pass removed all newlines and the later passes only delete
characters), so with the `m` flag the anchors span the whole string: the
string is deleted iff it is 3–50 characters drawn from `[A-Z\s]`. -/
def capsRemove (l : List Char) : List Char :=
  if 3 ≤ l.length ∧ l.length ≤ 50 ∧ l.all capsOrWS then [] else l

/-- `normalizeText` (the `Normalizer`), with the runtime's
`String.prototype.normalize('NFKC')` injected as the parameter `nfkc`
(on ASCII input it is the identity). -/
def normalizeText (nfkc : List Char → List Char) (text : List Char) : List Char :=
  if text = [] then []
  else jsTrim (capsRemove (removeFracs (removePageNums
    (collapseBlank (collapseWS (nfkc text))))))

/-! ### `chunkText` (src/app/api/process-document/route.ts, lines 38–72) -/

/-- `String.prototype.lastIndexOf(pat, fromIndex)`: the largest position
`k ≤ clamp(fromIndex, 0, length)` at which `pat` starts, or `-1`.  The
auxiliary function scans candidate positions downward from `k`. -/
def lastIndexOfAux (pat s : List Char) : Nat → Int
  | 0 => if pat.isPrefixOf s then 0 else -1
  | k + 1 =>
    if pat.isPrefixOf (s.drop (k + 1)) then ((k : Int) + 1)
    else lastIndexOfAux pat s k

/-- `s.lastIndexOf(pat, fromIndex)`. -/
def lastIndexOf (pat s : List Char) (fromIndex : Int) : Int :=
  lastIndexOfAux pat s (min (max fromIndex 0) (s.length : Int)).toNat

/-- `String.prototype.slice(start, end)` with the JavaScript clamping rules
(negative indices count from the end of the string). -/
def jsSlice (s : List Char) (start stop : Int) : List Char :=
  let len : Int := s.length
  let lo := if start < 0 then max (len + start) 0 else min start len
  let hi := if stop < 0 then max (len + stop) 0 else min stop len
  if lo < hi then (s.drop lo.toNat).take (hi - lo).toNat else []

/-- The candidate cut position for the chunk starting at `start`: `start +
maxChunkSize`, moved back to a paragraph or sentence boundary when one exists
past the half-size threshold (the loop body of `chunkText` before the slice).
The source compares against `start + maxChunkSize * 0.5`; both sides are
doubled here, which is exact. -/
def chunkEnd (text : List Char) (maxChunkSize : Int) (start : Int) : Int :=
  let stop := start + maxChunkSize
  if stop < (text.length : Int) then
    let sentenceEnd := lastIndexOf ['.'] text stop
    let paragraphEnd := lastIndexOf ['\n', '\n'] text stop
    if 2 * paragraphEnd > 2 * start + maxChunkSize then paragraphEnd
    else if 2 * sentenceEnd > 2 * start + maxChunkSize then sentenceEnd + 1
    else stop
  else stop

/-- The `while (start < text.length)` loop of `chunkText`, with an explicit
fuel so that a run of the loop that never terminates is the value `none` for
every fuel.  One recursive call models one iteration: compute the cut, emit
the trimmed slice when non-empty, advance `start = end - overlap` (the
source's end-of-body `if (start >= text.length) break` re-tests exactly the
loop condition, so it is represented by the next iteration's test). -/
def chunkLoop (text : List Char) (maxChunkSize overlap : Int) :
    Nat → Int → List (List Char) → Option (List (List Char))
  | 0, _, _ => none
  | fuel + 1, start, acc =>
    if start < (text.length : Int) then
      let stop := chunkEnd text maxChunkSize start
      let chunk := jsTrim (jsSlice text start stop)
      chunkLoop text maxChunkSize overlap fuel (stop - overlap)
        (if chunk.length > 0 then acc ++ [chunk] else acc)
    else some acc

/-- `chunkText(text, maxChunkSize = 1000, overlap = 200)` (the `Chunker`).
`text.length + 2` iterations always suffice for the default parameters used
by the repository (each iteration advances the cursor by at least `maxSize/2
- overlap > 0` characters there); a `none` result signals that the source's
loop does not terminate on these arguments. -/
def chunkText (text : List Char) (maxChunkSize overlap : Int) :
    Option (List (List Char)) :=
  chunkLoop text maxChunkSize overlap (text.length + 2) 0 []

/-! ### `processDocument` text validation (same file, lines 202–236)

Only the part of `processDocument` that operates on the extracted text is
modelled: file-type detection, the size guard and the byte-level extraction
act on the opaque `Buffer` and are not touched by any claim.  `rawText` below
is the string produced by extraction. -/

/-- Outcome of the text-processing stage of `processDocument`.  The two
failure constructors correspond to the two distinct `success: false` returns
with status 400: `emptyExtracted` carries the message `'Document appears to
be empty or contains no extractable text'`, `emptyAfterCleaning` the message
`'Document contains no meaningful text after processing'`.  (The spec calls
both `EmptyDocument`.) -/
inductive ProcessOutcome where
  | emptyExtracted : ProcessOutcome
  | emptyAfterCleaning : ProcessOutcome
  | ok : Option (List (List Char)) → ProcessOutcome
deriving DecidableEq

/-- The text-validation and chunking stage of `processDocument`: the
`!rawText || rawText.trim().length < 10` guard, normalization, the
`!cleanedText || cleanedText.trim().length < 10` guard, then
`chunkText(cleanedText, 1000, 200)`. -/
def processDocumentText (nfkc : List Char → List Char) (rawText : List Char) :
    ProcessOutcome :=
  if rawText = [] ∨ (jsTrim rawText).length < 10 then .emptyExtracted
  else
    let cleanedText := normalizeText nfkc rawText
    if cleanedText = [] ∨ (jsTrim cleanedText).length < 10 then .emptyAfterCleaning
    else .ok (chunkText cleanedText 1000 200)

/-! ### The retriever: `findRelevantChunks` and `buildContext`
(src/unnamed/part_002, second file: `lib/rag.ts` of the repository) -/

/-- A row of the `document_chunks` table (the exported `DocumentChunk` type),
restricted to the fields the retriever reads.  Vector components are `ℚ`
(exact model of the stored floats). -/
structure DocumentChunk where
  document_id : Nat
  content : String
  embedding : List ℚ
  chunk_index : Nat
deriving DecidableEq

/-- A chunk as returned by the retriever: `DocumentChunk & { similarity?:
number }`.  `none` models an absent (`undefined`) similarity field. -/
structure ScoredChunk where
  chunk : DocumentChunk
  similarity : Option ℚ
deriving DecidableEq

/-- `queryEmbedding.reduce((sum, val, i) => sum + val * (chunk.embedding[i] ||
0), 0)`: the dot product over the query's indices, reading a missing entry of
the chunk vector as `0`.  Summation order differs from the source's
left-to-right `reduce`, which is irrelevant in exact arithmetic. -/
def dotJS : List ℚ → List ℚ → ℚ
  | [], _ => 0
  | _ :: qs, [] => dotJS qs []
  | x :: qs, y :: vs => x * y + dotJS qs vs

/-- `v.reduce((sum, val) => sum + val * val, 0)`: the squared magnitude (the
source takes `Math.sqrt` of this; the square root is the injected `sqrt`
parameter below). -/
def magSq : List ℚ → ℚ
  | [] => 0
  | x :: xs => x * x + magSq xs

/-- `dotProduct / (queryMagnitude * chunkMagnitude)` with the source's
`isNaN(similarity) ? 0 : similarity` guard.  `sqrt` is the injected model of
`Math.sqrt`.  In `ℚ` division by zero yields `0`, which coincides with the
guard's output on JavaScript's only reachable non-finite case `0/0 = NaN`
(a zero denominator under a genuine square root forces a zero vector and
hence a zero numerator, so `x/0` with `x ≠ 0` cannot arise). -/
def cosineSimilarity (sqrt : ℚ → ℚ) (q v : List ℚ) : ℚ :=
  dotJS q v / (sqrt (magSq q) * sqrt (magSq v))

/-- The body of the fallback `allChunks.map(...)`: an absent or empty
embedding scores `0`, otherwise the guarded cosine similarity. -/
def scoreChunk (sqrt : ℚ → ℚ) (queryEmbedding : List ℚ) (c : DocumentChunk) :
    ScoredChunk :=
  if c.embedding = [] then ⟨c, some 0⟩
  else ⟨c, some (cosineSimilarity sqrt queryEmbedding c.embedding)⟩

/-- The sort key `(x.similarity || 0)` of the fallback's comparator. -/
def simKey (c : ScoredChunk) : ℚ := c.similarity.getD 0

/-- Stable insertion into a descending-by-similarity list (a later element
goes after existing elements with an equal key, as a stable
`Array.prototype.sort` places it). -/
def insertDesc (x : ScoredChunk) : List ScoredChunk → List ScoredChunk
  | [] => [x]
  | y :: ys => if simKey x ≤ simKey y then y :: insertDesc x ys else x :: y :: ys

/-- `.sort((a, b) => (b.similarity || 0) - (a.similarity || 0))`: stable sort,
descending by `(similarity || 0)`. -/
def sortBySimDesc (l : List ScoredChunk) : List ScoredChunk :=
  l.foldl (fun acc x => insertDesc x acc) []

/-- `findRelevantChunks(queryEmbedding, documentId, limit = 5)` (the
`Retriever`).  External effects are injected: `rpcResult` is the outcome of
the `match_document_chunks` RPC (`some data` iff `!error && data`; `none`
covers an RPC error or a thrown exception, both of which fall through to the
fallback), and `fetchResult` is the outcome of the fallback
`document_chunks` select, `.error` modelling `fetchError` (store
unreachable) and `.ok rows` the fetched rows (the store returns them
chunk-index ascending, at most `limit * 2` of them).  The function's
TypeScript return type has no error channel, and its `catch` handler returns
`[]`, so the model is total into a plain list. -/
def findRelevantChunks (sqrt : ℚ → ℚ) (queryEmbedding : List ℚ)
    (rpcResult : Option (List ScoredChunk))
    (fetchResult : Except Unit (List DocumentChunk)) (limit : Nat) :
    List ScoredChunk :=
  match rpcResult with
  | some data => data
  | none =>
    match fetchResult with
    | .error _ => []
    | .ok allChunks =>
      if allChunks = [] then []
      else
        (sortBySimDesc (allChunks.map (scoreChunk sqrt queryEmbedding))).take limit

/-- Exact-rational model of `Number.prototype.toFixed(1)` on a non-negative
value: round to the nearest tenth, ties away from zero. -/
def toFixed1Pos (x : ℚ) : String :=
  let n : Nat := (Rat.floor (10 * x + 1 / 2)).toNat
  Nat.repr (n / 10) ++ "." ++ Nat.repr (n % 10)

/-- `Number.prototype.toFixed(1)`: a negative value is formatted by
prepending `-` to the formatted negation (ECMA-262's `Number.prototype.toFixed`). -/
def toFixed1 (x : ℚ) : String :=
  if x < 0 then "-" ++ toFixed1Pos (-x) else toFixed1Pos x

/-- `const similarity = chunk.similarity ? \` (similarity: ...%)\` : ''`: the
label fragment, present only when the field is present and truthy (a `0`
similarity is falsy and yields the empty fragment). -/
def simLabel (s : Option ℚ) : String :=
  match s with
  | none => ""
  | some v =>
    if v = 0 then "" else " (similarity: " ++ toFixed1 (v * 100) ++ "%)"

/-- The `chunks.map(...)` callback of `buildContext`: one labeled block. -/
def renderChunk (c : ScoredChunk) : String :=
  "[Chunk " ++ Nat.repr (c.chunk.chunk_index + 1) ++ simLabel c.similarity ++
    "]\n" ++ c.chunk.content

/-- `Array.prototype.join(sep)`. -/
def joinWith (sep : String) : List String → String
  | [] => ""
  | [x] => x
  | x :: xs => x ++ sep ++ joinWith sep xs

/-- `buildContext(chunks)` (the `Context Builder`). -/
def buildContext (chunks : List ScoredChunk) : String :=
  if chunks = [] then "No relevant context found."
  else joinWith "\n\n---\n\n" (chunks.map renderChunk)

/-! ### The ingestion orchestrator: `POST /api/documents/upload`
(src/unnamed/part_003)

The route's steps acting on the document store are modelled as a pure
function on an explicit store state, with every external outcome injected:
the per-chunk embedding results (`embed`), the `documents` insert
(`docInsertFails`, with `newDocId` the id the store would assign), the
per-batch `document_chunks` inserts (`batchFails`, indexed by the batch's
starting offset `i = 0, 50, 100, ...`) and the outcomes of the two
best-effort cleanup deletes (`docDeleteFails`, `chunkDeleteFails`; see
`cleanupStore`).  The steps before the embedding
phase (auth/session, rate limit, form parsing, file validation,
`processDocument`) only decide whether the pipeline is reached at all and
are not modelled; `chunks` below is the chunk list `processDocument`
produced.  Two store interactions without observable effect on the claims
are collapsed with a comment in the flow: the read-only `document_chunks`
existence probe, and the retry of the `documents` insert without the
`chunk_count` column (it writes the same row minus one column). -/

/-- A row of the `documents` table as written by the upload route. -/
structure DocRow where
  id : Nat
  name : String
  content : List Char
  chunk_count : Nat
deriving DecidableEq

/-- A row of the `document_chunks` table as written by the upload route. -/
structure ChunkRow where
  document_id : Nat
  content : List Char
  embedding : List ℚ
  chunk_index : Nat
deriving DecidableEq

/-- The document store (the two tables the route writes). -/
structure Store where
  documents : List DocRow
  chunks : List ChunkRow
deriving DecidableEq

/-- The route's possible responses, by `code`:  `uploadError` is the 500
`UPLOAD_ERROR` produced by the `catch` around the embedding/persisting
phase (count-mismatch and dimension-validation `throw`s land here),
`databaseError` the 500 `DATABASE_ERROR` of a failed `documents` insert,
`chunksError i` the 500 `CHUNKS_ERROR` of a failed `document_chunks` batch
insert at offset `i`, and `success` the 200 response. -/
inductive UploadResult where
  | success : Nat → UploadResult
  | uploadError : UploadResult
  | databaseError : UploadResult
  | chunksError : Nat → UploadResult
deriving DecidableEq

/-- `chunks.join('\n\n')` — the `content` stored on the Document row. -/
def joinNN : List (List Char) → List Char
  | [] => []
  | [c] => c
  | c :: cs => c ++ '\n' :: '\n' :: joinNN cs

/-- The `chunkInserts` array: one `document_chunks` row per chunk, wired to
`document.id`, with `embedding: embeddings[index]` and `chunk_index: index`. -/
def chunkInserts (docId : Nat) (chunks : List (List Char))
    (embeddings : List (List ℚ)) : List ChunkRow :=
  (chunks.zip embeddings).enum.map fun p =>
    ⟨docId, p.2.1, p.2.2, p.1⟩

/-- The cleanup block run when a chunk batch fails (`Clean up document if
chunks fail`): a `documents` delete by id, then a `document_chunks` delete
by document id.  Both deletes are best-effort in the source: they sit in a
`try` whose `catch` only logs, and their supabase error results are
discarded, so either delete can fail to remove its rows.  `docDeleteFails`
and `chunkDeleteFails` inject those outcomes (a delete that resolves with a
discarded error, or a thrown first delete that also skips the second —
the latter is the case `docDeleteFails = true, chunkDeleteFails = true`);
a failed delete leaves the store's rows untouched. -/
def cleanupStore (docDeleteFails chunkDeleteFails : Bool) (docId : Nat)
    (store : Store) : Store :=
  ⟨if docDeleteFails then store.documents
   else store.documents.filter (fun d => d.id ≠ docId),
   if chunkDeleteFails then store.chunks
   else store.chunks.filter (fun c => c.document_id ≠ docId)⟩

/-- The batch-insert loop over `chunkInserts` (`BATCH_SIZE = 50`): insert 50
rows at a time; on the first failing batch, run the best-effort cleanup
(`cleanupStore`) and stop, reporting that batch's offset (the route responds
`CHUNKS_ERROR` whether or not the cleanup deletes succeeded).  The recursion
is driven by a fuel so that it is structural; every step removes at least
one row, so the fuel used by the wrapper `insertBatches` never runs out. -/
def insertBatchesF (batchFails : Nat → Bool)
    (docDeleteFails chunkDeleteFails : Bool) (docId : Nat) :
    Nat → List ChunkRow → Nat → Store → Store × Option Nat
  | _, [], _, store => (store, none)
  | 0, _ :: _, _, store => (store, none)
  | fuel + 1, r :: rs, i, store =>
    if batchFails i then
      (cleanupStore docDeleteFails chunkDeleteFails docId store, some i)
    else
      insertBatchesF batchFails docDeleteFails chunkDeleteFails docId fuel
        ((r :: rs).drop 50) (i + 50)
        ⟨store.documents, store.chunks ++ (r :: rs).take 50⟩

/-- The batch-insert loop of the upload route. -/
def insertBatches (batchFails : Nat → Bool)
    (docDeleteFails chunkDeleteFails : Bool) (docId : Nat)
    (rows : List ChunkRow) (i : Nat) (store : Store) : Store × Option Nat :=
  insertBatchesF batchFails docDeleteFails chunkDeleteFails docId
    rows.length rows i store

/-- The embedding-and-persisting phase of the upload route, starting where
`processDocument` has succeeded with `chunks`.  In the source the
`embeddings` array is assembled by batching `chunks` (10 at a time) through
`generateEmbedding` and concatenating the results in order, which yields
exactly one embedding per chunk: `chunks.map embed`.  The
`embeddings.length !== chunks.length` check (present twice) and the
per-index dimension check (`expectedDimension = 1536`) `throw`, which the
surrounding `catch` turns into the 500 `UPLOAD_ERROR` response — without any
store cleanup.  The `documents` insert happens between the two count checks;
the dimension check runs after it. -/
def uploadFlow (chunks : List (List Char)) (embed : List Char → List ℚ)
    (docInsertFails : Bool) (newDocId : Nat) (name : String)
    (batchFails : Nat → Bool) (docDeleteFails chunkDeleteFails : Bool)
    (store : Store) : Store × UploadResult :=
  let embeddings := chunks.map embed
  -- `if (embeddings.length !== chunks.length) throw` (first count check)
  if embeddings.length ≠ chunks.length then (store, .uploadError)
  else
    -- (read-only `document_chunks` existence probe: no store effect)
    -- `documents` insert (with the same-row fallback without `chunk_count`)
    if docInsertFails then (store, .databaseError)
    else
      let store1 : Store :=
        ⟨store.documents ++ [⟨newDocId, name, joinNN chunks, chunks.length⟩],
         store.chunks⟩
      -- second `embeddings.length !== chunks.length` check
      if embeddings.length ≠ chunks.length then (store1, .uploadError)
      else
        -- dimension validation: `embeddings[i].length !== 1536` throws
        if embeddings.any (fun e => e.length ≠ 1536) then (store1, .uploadError)
        else
          match insertBatches batchFails docDeleteFails chunkDeleteFails
              newDocId (chunkInserts newDocId chunks embeddings) 0 store1 with
          | (store2, some i) => (store2, .chunksError i)
          | (store2, none) => (store2, .success newDocId)

/-! ## Supporting lemmas -/

/-- The output of the whitespace-collapse scanner never contains a newline
(every whitespace character is replaced by a space). -/
theorem collapseWSAux_no_newline (flag : Bool) (l : List Char) :
    '\n' ∉ collapseWSAux flag l := by
  induction l generalizing flag with
  | nil => simp [collapseWSAux]
  | cons c cs ih =>
    unfold collapseWSAux
    by_cases hw : jsWhitespace c
    · rw [if_pos hw]
      cases flag with
      | true => simpa using ih true
      | false =>
        simp only [if_neg (Bool.false_ne_true), List.mem_cons]
        rintro (h | h)
        · exact absurd h.symm (by decide)
        · exact ih true h
    · rw [if_neg hw]
      simp only [List.mem_cons]
      rintro (h | h)
      · subst h; exact hw (by decide)
      · exact ih false h

/-- A string without newlines is a fixpoint of the blank-line collapse pass
(the regex `/\n\s*\n\s*\n+/` cannot match). -/
theorem collapseBlankF_of_no_newline (fuel : Nat) (l : List Char)
    (h : '\n' ∉ l) : collapseBlankF fuel l = l := by
  induction fuel generalizing l with
  | zero => cases l <;> rfl
  | succ fuel ih =>
    cases l with
    | nil => rfl
    | cons c cs =>
      have hc : ¬(c = '\n') := fun e => h (e ▸ List.mem_cons_self c cs)
      unfold collapseBlankF
      rw [if_neg hc, ih cs (fun m => h (List.mem_cons_of_mem c m))]

/-! ## Claims -/

/-! ### C4 — idempotence of normalization (corrected)

The claim `normalize(normalize(x)) = normalize(x)` for every string fails:
removing a `Page N` artifact can leave two adjacent spaces (the characters on
either side of the removed match), which only a second whitespace-collapse
pass merges.  `normalizeText` is idempotent exactly on the inputs whose
normal form is left unchanged by each individual cleaning pass. -/

/-- C4, counterexample: for `x = "x Page 1 y"` (NFKC is the identity on this
ASCII input), `normalize(x) = "x  y"` — removing `"Page 1"` leaves a double
space — while `normalize(normalize(x)) = "x y"`. -/
theorem c4_counterexample :
    normalizeText id (normalizeText id "x Page 1 y".data) ≠
      normalizeText id "x Page 1 y".data ∧
    normalizeText id "x Page 1 y".data = "x  y".data ∧
    normalizeText id "x  y".data = "x y".data := by
  refine ⟨?_, by decide, by decide⟩
  decide

/-- C4, amended: normalization is idempotent on every input whose normalized
form is a fixpoint of each individual cleaning pass (NFKC, whitespace
collapse, page-number removal, page-counter removal, header stripping,
trimming); in general a second application may differ (see
`c4_counterexample`). -/
theorem c4_normalize_idempotent_on_fixpoints (nfkc : List Char → List Char)
    (x : List Char)
    (h0 : nfkc (normalizeText nfkc x) = normalizeText nfkc x)
    (h1 : collapseWS (normalizeText nfkc x) = normalizeText nfkc x)
    (h2 : removePageNums (normalizeText nfkc x) = normalizeText nfkc x)
    (h3 : removeFracs (normalizeText nfkc x) = normalizeText nfkc x)
    (h4 : capsRemove (normalizeText nfkc x) = normalizeText nfkc x)
    (h5 : jsTrim (normalizeText nfkc x) = normalizeText nfkc x) :
    normalizeText nfkc (normalizeText nfkc x) = normalizeText nfkc x := by
  set y := normalizeText nfkc x with hy
  have hnl : '\n' ∉ y := by
    rw [← h1]
    exact collapseWSAux_no_newline false y
  have hblank : collapseBlank y = y :=
    collapseBlankF_of_no_newline y.length y hnl
  by_cases he : y = []
  · rw [he]; rfl
  · show normalizeText nfkc y = y
    unfold normalizeText
    rw [if_neg he, h0, h1, hblank, h2, h3, h4, h5]

/-- C4, witness for the amended theorem at `x = "hello world"`. -/
theorem c4_witness :
    normalizeText id (normalizeText id "hello world".data) =
      normalizeText id "hello world".data :=
  c4_normalize_idempotent_on_fixpoints id "hello world".data (by decide)
    (by decide) (by decide) (by decide) (by decide) (by decide)

/-! ### C5 — termination of the chunker (code_bug)

The spec requires the chunking loop to terminate for every `maxSize` and
`overlap`, via an explicit degenerate guard ("implementers must add this
guard explicitly since overlap ≥ maxSize would otherwise never terminate").
The source has no such guard: its loop body is exactly one iteration of
`chunkLoop`, and for `overlap ≥ maxSize` the cursor never advances.  On
`text = "aaaaaaaaaa"`, `maxSize = 2`, `overlap = 2` the cursor stays at `0`
forever, so the loop runs out of any finite fuel. -/

/-- C5: on ten `'a'`s with `maxChunkSize = 2 = overlap`, the chunking loop is
still running after any number of iterations, from any accumulator —
i.e. the source's `while` loop never terminates (no degenerate guard
exists).  In particular `chunkText` exhausts its fuel. -/
theorem c5_chunker_no_degenerate_guard :
    (∀ fuel acc, chunkLoop (List.replicate 10 'a') 2 2 fuel 0 acc = none) ∧
    chunkText (List.replicate 10 'a') 2 2 = none := by
  have key : ∀ fuel acc, chunkLoop (List.replicate 10 'a') 2 2 fuel 0 acc = none := by
    intro fuel
    induction fuel with
    | zero => intro acc; rfl
    | succ n ih =>
      intro acc
      have step : chunkLoop (List.replicate 10 'a') 2 2 (n + 1) 0 acc =
          chunkLoop (List.replicate 10 'a') 2 2 n 0 (acc ++ [['a', 'a']]) := rfl
      rw [step]
      exact ih _
  exact ⟨key, key _ _⟩

/-! ### C6 — chunking a 2500-character document (corrected)

For a plain 2500-character text the loop visits `start = 0, 800, 1600, 2400`
— four chunks, not three: after the third slice `[1600, 2500)` the cursor is
`2600 - 200 = 2400 < 2500`, so a fourth iteration emits the 100-character
tail (which lies inside the third chunk).  The claim's `3` is wrong even in
the boundary-free case; with sentence/paragraph boundaries the count varies
further. -/

theorem dropWhile_eq_self_of_forall (p : Char → Bool) (l : List Char)
    (h : ∀ c ∈ l, p c = false) : l.dropWhile p = l := by
  cases l with
  | nil => rfl
  | cons c cs =>
    rw [List.dropWhile_cons, if_neg (by simp [h c (List.mem_cons_self c cs)])]

/-- Trimming is the identity on whitespace-free strings. -/
theorem jsTrim_eq_self (l : List Char) (h : ∀ c ∈ l, jsWhitespace c = false) :
    jsTrim l = l := by
  unfold jsTrim
  rw [dropWhile_eq_self_of_forall _ _ h,
    dropWhile_eq_self_of_forall _ _ (fun c m => h c (List.mem_reverse.mp m)),
    List.reverse_reverse]

theorem jsSlice_subset (text : List Char) (a b : Int) :
    jsSlice text a b ⊆ text := by
  intro c hc
  simp only [jsSlice] at hc
  split at hc <;> split at hc <;> split at hc <;>
    first
      | exact List.drop_subset _ _ (List.take_subset _ _ hc)
      | cases hc

/-- `lastIndexOf` misses when the pattern's first character does not occur. -/
theorem lastIndexOf_eq_neg_one (c : Char) (p s : List Char) (h : c ∉ s)
    (fromIndex : Int) : lastIndexOf (c :: p) s fromIndex = -1 := by
  unfold lastIndexOf
  generalize (min (max fromIndex 0) (s.length : Int)).toNat = k
  induction k with
  | zero =>
    unfold lastIndexOfAux
    rw [if_neg]
    intro hp
    obtain ⟨t, ht⟩ := List.isPrefixOf_iff_prefix.mp hp
    exact h (ht ▸ List.mem_append_left t (List.mem_cons_self c p))
  | succ k ih =>
    unfold lastIndexOfAux
    rw [if_neg, ih]
    intro hp
    obtain ⟨t, ht⟩ := List.isPrefixOf_iff_prefix.mp hp
    exact h (List.drop_subset (k + 1) s
      (ht ▸ List.mem_append_left t (List.mem_cons_self c p)))

/-- Without periods and newlines the boundary search never fires, so the cut
is always exactly `start + maxChunkSize`. -/
theorem chunkEnd_of_no_boundary (text : List Char) (maxChunkSize start : Int)
    (hdot : '.' ∉ text) (hnl : '\n' ∉ text)
    (harith : -2 ≤ 2 * start + maxChunkSize) :
    chunkEnd text maxChunkSize start = start + maxChunkSize := by
  unfold chunkEnd
  by_cases hlt : start + maxChunkSize < (text.length : Int)
  · rw [if_pos hlt, lastIndexOf_eq_neg_one '.' [] text hdot,
      lastIndexOf_eq_neg_one '\n' ['\n'] text hnl, if_neg (by omega),
      if_neg (by omega)]
  · rw [if_neg hlt]

/-- One iteration of the chunking loop. -/
theorem chunkLoop_step (text : List Char) (maxChunkSize overlap : Int)
    (fuel : Nat) (start : Int) (acc : List (List Char))
    (h : start < (text.length : Int)) :
    chunkLoop text maxChunkSize overlap (fuel + 1) start acc =
      chunkLoop text maxChunkSize overlap fuel
        (chunkEnd text maxChunkSize start - overlap)
        (if (jsTrim (jsSlice text start (chunkEnd text maxChunkSize start))).length > 0
         then acc ++ [jsTrim (jsSlice text start (chunkEnd text maxChunkSize start))]
         else acc) := by
  conv => lhs; unfold chunkLoop
  rw [if_pos h]

/-- Loop exit. -/
theorem chunkLoop_exit (text : List Char) (maxChunkSize overlap : Int)
    (fuel : Nat) (start : Int) (acc : List (List Char))
    (h : ¬ start < (text.length : Int)) :
    chunkLoop text maxChunkSize overlap (fuel + 1) start acc = some acc := by
  conv => lhs; unfold chunkLoop
  rw [if_neg h]

/-- The chunker on a 2500-character text with no whitespace and no period:
the loop visits `start = 0, 800, 1600, 2400` and emits the four slices
`[0,1000)`, `[800,1800)`, `[1600,2500)`, `[2400,2500)`. -/
theorem chunkText_2500_of_plain (text : List Char) (hlen : text.length = 2500)
    (hch : ∀ c ∈ text, jsWhitespace c = false ∧ c ≠ '.') :
    chunkText text 1000 200 =
      some [text.take 1000, (text.drop 800).take 1000,
        (text.drop 1600).take 900, (text.drop 2400).take 100] := by
  have hdot : '.' ∉ text := fun m => (hch _ m).2 rfl
  have hnl : '\n' ∉ text := fun m => by
    have h1 := (hch _ m).1
    rw [show jsWhitespace '\n' = true from by decide] at h1
    cases h1
  have hws : ∀ a b : Int, ∀ c ∈ jsSlice text a b, jsWhitespace c = false :=
    fun a b c m => (hch c (jsSlice_subset text a b m)).1
  have hcast : ((text.length : Nat) : Int) = 2500 := by rw [hlen]; norm_num
  have s1 : jsSlice text 0 1000 = text.take 1000 := by
    simp only [jsSlice, hcast]
    norm_num
    rfl
  have s2 : jsSlice text 800 1800 = (text.drop 800).take 1000 := by
    simp only [jsSlice, hcast]
    norm_num
    rfl
  have s3 : jsSlice text 1600 2600 = (text.drop 1600).take 900 := by
    simp only [jsSlice, hcast]
    norm_num
    rfl
  have s4 : jsSlice text 2400 3400 = (text.drop 2400).take 100 := by
    simp only [jsSlice, hcast]
    norm_num
    rfl
  have l1 : (text.take 1000).length = 1000 := by
    simp [List.length_take, hlen]
  have l2 : ((text.drop 800).take 1000).length = 1000 := by
    simp [List.length_take, List.length_drop, hlen]
  have l3 : ((text.drop 1600).take 900).length = 900 := by
    simp [List.length_take, List.length_drop, hlen]
  have l4 : ((text.drop 2400).take 100).length = 100 := by
    simp [List.length_take, List.length_drop, hlen]
  have e1 : chunkEnd text 1000 0 = 1000 := by
    rw [chunkEnd_of_no_boundary text 1000 0 hdot hnl (by norm_num)]
    norm_num
  have e2 : chunkEnd text 1000 800 = 1800 := by
    rw [chunkEnd_of_no_boundary text 1000 800 hdot hnl (by norm_num)]
    norm_num
  have e3 : chunkEnd text 1000 1600 = 2600 := by
    rw [chunkEnd_of_no_boundary text 1000 1600 hdot hnl (by norm_num)]
    norm_num
  have e4 : chunkEnd text 1000 2400 = 3400 := by
    rw [chunkEnd_of_no_boundary text 1000 2400 hdot hnl (by norm_num)]
    norm_num
  unfold chunkText
  rw [hlen, show (2500 + 2 : Nat) = 2501 + 1 from rfl,
    chunkLoop_step text 1000 200 2501 0 [] (by rw [hcast]; norm_num), e1,
    jsTrim_eq_self _ (hws 0 1000), s1, l1, if_pos (by norm_num),
    List.nil_append, show (1000 - 200 : Int) = 800 from by norm_num,
    show (2501 : Nat) = 2500 + 1 from rfl,
    chunkLoop_step text 1000 200 2500 800 _ (by rw [hcast]; norm_num), e2,
    jsTrim_eq_self _ (hws 800 1800), s2, l2, if_pos (by norm_num),
    show (1800 - 200 : Int) = 1600 from by norm_num,
    show (2500 : Nat) = 2499 + 1 from rfl,
    chunkLoop_step text 1000 200 2499 1600 _ (by rw [hcast]; norm_num), e3,
    jsTrim_eq_self _ (hws 1600 2600), s3, l3, if_pos (by norm_num),
    show (2600 - 200 : Int) = 2400 from by norm_num,
    show (2499 : Nat) = 2498 + 1 from rfl,
    chunkLoop_step text 1000 200 2498 2400 _ (by rw [hcast]; norm_num), e4,
    jsTrim_eq_self _ (hws 2400 3400), s4, l4, if_pos (by norm_num),
    show (3400 - 200 : Int) = 3200 from by norm_num,
    show (2498 : Nat) = 2497 + 1 from rfl,
    chunkLoop_exit text 1000 200 2497 3200 _ (by rw [hcast]; norm_num)]
  simp

/-- C6, counterexample: the uniform 2500-character document (2500 `'a'`s, no
sentence or paragraph boundaries) is chunked with `maxSize = 1000, overlap =
200` into FOUR chunks, not three. -/
theorem c6_counterexample :
    Option.map List.length (chunkText (List.replicate 2500 'a') 1000 200) =
      some 4 ∧ (4 : Nat) ≠ 3 := by
  refine ⟨?_, by decide⟩
  rw [chunkText_2500_of_plain (List.replicate 2500 'a')
    (List.length_replicate 2500 'a')
    (List.forall_mem_replicate.mpr (Or.inr ⟨by decide, by decide⟩))]
  rfl

/-- C6, amended: a 2500-character plain-text document containing no
whitespace and no period (so no sentence or paragraph boundary fires)
produces exactly FOUR chunks — the slices `[0,1000)`, `[800,1800)`,
`[1600,2500)` and the 100-character tail `[2400,2500)` — with indices 0–3,
each at most 1000 characters; each chunk overlaps the next by up to 200
characters (the first two pairs by exactly 200, and the final tail chunk is
the last 100 characters of its predecessor). -/
theorem c6_chunk_2500_amended (text : List Char) (hlen : text.length = 2500)
    (hch : ∀ c ∈ text, jsWhitespace c = false ∧ c ≠ '.') :
    chunkText text 1000 200 =
      some [text.take 1000, (text.drop 800).take 1000,
        (text.drop 1600).take 900, (text.drop 2400).take 100] ∧
    (text.take 1000).length = 1000 ∧
    ((text.drop 800).take 1000).length = 1000 ∧
    ((text.drop 1600).take 900).length = 900 ∧
    ((text.drop 2400).take 100).length = 100 ∧
    ((text.drop 800).take 1000).take 200 = (text.take 1000).drop 800 ∧
    ((text.drop 1600).take 900).take 200 = ((text.drop 800).take 1000).drop 800 ∧
    (text.drop 2400).take 100 = ((text.drop 1600).take 900).drop 800 := by
  refine ⟨chunkText_2500_of_plain text hlen hch, ?_, ?_, ?_, ?_, ?_, ?_, ?_⟩
  · simp [List.length_take, hlen]
  · simp [List.length_take, List.length_drop, hlen]
  · simp [List.length_take, List.length_drop, hlen]
  · simp [List.length_take, List.length_drop, hlen]
  · rw [List.take_take, List.drop_take]; norm_num
  · rw [List.take_take, List.drop_take, List.drop_drop]; norm_num
  · rw [List.drop_take, List.drop_drop]

/-- C6, witness for the amended theorem at the uniform document of 2500
`'a'`s. -/
theorem c6_witness :
    chunkText (List.replicate 2500 'a') 1000 200 =
      some [(List.replicate 2500 'a').take 1000,
        ((List.replicate 2500 'a').drop 800).take 1000,
        ((List.replicate 2500 'a').drop 1600).take 900,
        ((List.replicate 2500 'a').drop 2400).take 100] ∧
    ((List.replicate 2500 'a').take 1000).length = 1000 ∧
    (((List.replicate 2500 'a').drop 800).take 1000).length = 1000 ∧
    (((List.replicate 2500 'a').drop 1600).take 900).length = 900 ∧
    (((List.replicate 2500 'a').drop 2400).take 100).length = 100 ∧
    (((List.replicate 2500 'a').drop 800).take 1000).take 200 =
      ((List.replicate 2500 'a').take 1000).drop 800 ∧
    (((List.replicate 2500 'a').drop 1600).take 900).take 200 =
      (((List.replicate 2500 'a').drop 800).take 1000).drop 800 ∧
    ((List.replicate 2500 'a').drop 2400).take 100 =
      (((List.replicate 2500 'a').drop 1600).take 900).drop 800 :=
  c6_chunk_2500_amended (List.replicate 2500 'a') (List.length_replicate 2500 'a')
    (List.forall_mem_replicate.mpr (Or.inr ⟨by decide, by decide⟩))

/-! ### C7 — the EmptyDocument threshold (corrected)

The source tests `rawText.trim().length < 10` and
`cleanedText.trim().length < 10`: the length of the *trimmed text*, interior
whitespace included — not the number of *non-whitespace* characters the
claim states.  A document whose trimmed text is 10+ characters but has fewer
than 10 non-whitespace characters proceeds. -/

/-- The claim's criterion, written from the spec's words for comparison with
the source's check: the number of non-whitespace characters. -/
def specNonWhitespaceCount (l : List Char) : Nat :=
  (l.filter (fun c => ¬ jsWhitespace c)).length

/-- C7, counterexample: `"ab cd ef gh"` has 8 non-whitespace characters
(fewer than 10), so by the claim processing should fail with
`EmptyDocument`; the code's check sees the trimmed length 11 ≥ 10 and the
document proceeds to chunking. -/
theorem c7_counterexample :
    specNonWhitespaceCount (jsTrim "ab cd ef gh".data) < 10 ∧
    processDocumentText id "ab cd ef gh".data =
      ProcessOutcome.ok (some ["ab cd ef gh".data]) :=
  ⟨by decide, by decide⟩

/-- C7, amended: document processing fails with one of the two
EmptyDocument errors exactly when the *trimmed* text (all characters,
whitespace included) has fewer than 10 characters — the check applied to
the extracted text and again to the normalized text — and a document
passing both thresholds proceeds to chunking. -/
theorem c7_empty_document_threshold_amended (nfkc : List Char → List Char)
    (rawText : List Char) :
    ((processDocumentText nfkc rawText = .emptyExtracted ∨
      processDocumentText nfkc rawText = .emptyAfterCleaning) ↔
     ((jsTrim rawText).length < 10 ∨
      (jsTrim (normalizeText nfkc rawText)).length < 10)) ∧
    (processDocumentText nfkc rawText = .emptyExtracted ∨
     processDocumentText nfkc rawText = .emptyAfterCleaning ∨
     processDocumentText nfkc rawText =
       .ok (chunkText (normalizeText nfkc rawText) 1000 200)) := by
  simp only [processDocumentText]
  split_ifs with h1 h2
  · refine ⟨⟨fun _ => ?_, fun _ => Or.inl rfl⟩, Or.inl rfl⟩
    rcases h1 with h | h
    · subst h
      exact Or.inl (by decide)
    · exact Or.inl h
  · refine ⟨⟨fun _ => ?_, fun _ => Or.inr rfl⟩, Or.inr (Or.inl rfl)⟩
    rcases h2 with h | h
    · right
      rw [h]
      decide
    · exact Or.inr h
  · refine ⟨⟨fun hcon => ?_, fun hr => ?_⟩, Or.inr (Or.inr rfl)⟩
    · rcases hcon with h | h <;> simp at h
    · exfalso
      rcases hr with h | h
      · exact h1 (Or.inr h)
      · exact h2 (Or.inr h)

/-- C7, witness for the amended theorem at `"hello world"` (which passes
both thresholds and proceeds). -/
theorem c7_witness :
    ((processDocumentText id "hello world".data = .emptyExtracted ∨
      processDocumentText id "hello world".data = .emptyAfterCleaning) ↔
     ((jsTrim "hello world".data).length < 10 ∨
      (jsTrim (normalizeText id "hello world".data)).length < 10)) ∧
    (processDocumentText id "hello world".data = .emptyExtracted ∨
     processDocumentText id "hello world".data = .emptyAfterCleaning ∨
     processDocumentText id "hello world".data =
       .ok (chunkText (normalizeText id "hello world".data) 1000 200)) :=
  c7_empty_document_threshold_amended id "hello world".data

/-! ### C8 — the guarded cosine similarity of the fallback path (confirmed,
in the exact-arithmetic model) -/

theorem dotJS_eq_zero_of_left (q v : List ℚ) (h : ∀ x ∈ q, x = 0) :
    dotJS q v = 0 := by
  induction q generalizing v with
  | nil => rfl
  | cons x qs ih =>
    have hx : x = 0 := h x (List.mem_cons_self x qs)
    have hqs : ∀ y ∈ qs, y = 0 := fun y m => h y (List.mem_cons_of_mem x m)
    cases v with
    | nil => simpa [dotJS] using ih [] hqs
    | cons y vs => simp [dotJS, hx, ih vs hqs]

theorem dotJS_eq_zero_of_right (q v : List ℚ) (h : ∀ x ∈ v, x = 0) :
    dotJS q v = 0 := by
  induction q generalizing v with
  | nil => rfl
  | cons x qs ih =>
    cases v with
    | nil => simpa [dotJS] using ih [] (by simp)
    | cons y vs =>
      have hy : y = 0 := h y (List.mem_cons_self y vs)
      simp [dotJS, hy, ih vs (fun z m => h z (List.mem_cons_of_mem y m))]

theorem dotJS_self (v : List ℚ) : dotJS v v = magSq v := by
  induction v with
  | nil => rfl
  | cons x xs ih => simp [dotJS, magSq, ih]

/-- C8: the fallback similarity is total and guarded — an absent or empty
chunk vector scores `0`; an all-zero query or chunk vector yields `0`; a
vanishing denominator (the non-finite-quotient guard: in exact arithmetic the
only reachable non-finite case, JavaScript's `0/0 = NaN`, is mapped to `0`
by the `isNaN` guard, and `ℚ`-division by zero is `0`) yields `0`; orthogonal
vectors yield exactly `0`; and an identical pair of non-zero vectors yields
exactly `1` whenever `sqrt` squares back to its argument there. -/
theorem c8_cosine_guards (sqrt : ℚ → ℚ) (q v : List ℚ) :
    (∀ c : DocumentChunk, c.embedding = [] → scoreChunk sqrt q c = ⟨c, some 0⟩) ∧
    ((∀ x ∈ q, x = 0) → cosineSimilarity sqrt q v = 0) ∧
    ((∀ x ∈ v, x = 0) → cosineSimilarity sqrt q v = 0) ∧
    (sqrt (magSq q) * sqrt (magSq v) = 0 → cosineSimilarity sqrt q v = 0) ∧
    (dotJS q v = 0 → cosineSimilarity sqrt q v = 0) ∧
    (magSq v ≠ 0 → sqrt (magSq v) ^ 2 = magSq v →
      cosineSimilarity sqrt v v = 1) := by
  refine ⟨fun c h => by simp [scoreChunk, h], ?_, ?_, ?_, ?_, ?_⟩
  · intro h
    simp [cosineSimilarity, dotJS_eq_zero_of_left q v h]
  · intro h
    simp [cosineSimilarity, dotJS_eq_zero_of_right q v h]
  · intro h
    simp [cosineSimilarity, h]
  · intro h
    simp [cosineSimilarity, h]
  · intro hne hsq
    rw [cosineSimilarity, dotJS_self, ← pow_two, hsq, div_self hne]

/-- C8, witness: with a square root valid at `1`, the orthogonal pair
`(1,0) ⊥ (0,1)` scores `0`, the identical unit pair `(3/5, 4/5)` scores `1`,
and an empty stored vector is guarded to `0`. -/
theorem c8_witness :
    cosineSimilarity (fun x => if x = 1 then 1 else 0) [1, 0] [0, 1] = 0 ∧
    cosineSimilarity (fun x => if x = 1 then 1 else 0) [3/5, 4/5] [3/5, 4/5] = 1 ∧
    scoreChunk (fun x => if x = 1 then 1 else 0) [1, 0] ⟨7, "c", [], 3⟩ =
      ⟨⟨7, "c", [], 3⟩, some 0⟩ :=
  ⟨(c8_cosine_guards (fun x => if x = 1 then 1 else 0) [1, 0] [0, 1]).2.2.2.2.1
      (by norm_num [dotJS]),
   (c8_cosine_guards (fun x => if x = 1 then 1 else 0) [3/5, 4/5]
      [3/5, 4/5]).2.2.2.2.2 (by norm_num [magSq]) (by norm_num [magSq]),
   (c8_cosine_guards (fun x => if x = 1 then 1 else 0) [1, 0] []).1
      ⟨7, "c", [], 3⟩ rfl⟩

/-! ### C3 — store-fetch failure in the retriever (corrected)

`findRelevantChunks` has no error channel at all: its fallback path returns
the plain `[]` both when the fetch errors (`if (fetchError || !allChunks ||
allChunks.length === 0) return []`) and when the store simply has no rows,
and the enclosing `catch` also returns `[]`.  No `RetrievalUnavailable`
error exists; "no relevant content" and "could not check" are
indistinguishable to the caller. -/

/-- C3, counterexample: with the native RPC unavailable, a failed chunk
fetch produces the ordinary empty result — the same value as a successful
fetch of an empty document — not an error. -/
theorem c3_counterexample :
    findRelevantChunks (fun _ => 0) [1] none (Except.error ()) 5 = [] ∧
    findRelevantChunks (fun _ => 0) [1] none (Except.ok []) 5 = [] :=
  ⟨rfl, rfl⟩

/-- C3, amended: for every query in which fetching the document's chunks
fails, the retriever returns the empty sequence (its return type has no
error channel), identical to the result for a document with no relevant
content. -/
theorem c3_fetch_failure_empty_amended (sqrt : ℚ → ℚ) (q : List ℚ)
    (e : Unit) (limit : Nat) :
    findRelevantChunks sqrt q none (Except.error e) limit = [] ∧
    findRelevantChunks sqrt q none (Except.error e) limit =
      findRelevantChunks sqrt q none (Except.ok []) limit :=
  ⟨rfl, rfl⟩

/-! ### C9 — `buildContext` rendering (corrected)

The similarity part of the block label is conditional: `chunk.similarity ?
...` omits it when the field is absent *or zero* (JavaScript falsiness), so
a chunk with similarity `0` renders as `[Chunk 1]\n...` without the
`(similarity: ...)` text the claim requires on every block. -/

/-- The labeled block as the amended claim words it (spec-side definition,
for comparison with the source's `renderChunk`): the similarity annotation
appears only when a similarity is present and non-zero. -/
def specRenderBlock (index : Nat) (similarity : Option ℚ) (content : String) :
    String :=
  "[Chunk " ++ Nat.repr (index + 1) ++
    (match similarity with
     | some s =>
       if s ≠ 0 then " (similarity: " ++ toFixed1 (s * 100) ++ "%)" else ""
     | none => "") ++ "]\n" ++ content

theorem renderChunk_eq_specRenderBlock (c : ScoredChunk) :
    renderChunk c =
      specRenderBlock c.chunk.chunk_index c.similarity c.chunk.content := by
  rcases c with ⟨ch, s⟩
  rcases s with _ | v
  · rfl
  · by_cases hv : v = 0
    · simp [renderChunk, specRenderBlock, simLabel, hv]
    · simp [renderChunk, specRenderBlock, simLabel, hv]

/-- C9, counterexample: a chunk whose similarity is `0` (as the fallback
path itself produces for an empty stored vector) is rendered without any
similarity annotation, so the claimed block shape with a
`(similarity: <pct>%)` label on every chunk is not met. -/
theorem c9_counterexample :
    buildContext [⟨⟨1, "hello", [], 0⟩, some 0⟩] = "[Chunk 1]\nhello" ∧
    "[Chunk 1]\nhello" ≠ "[Chunk 1 (similarity: 0.0%)]\nhello" :=
  ⟨by decide, by decide⟩

/-- C9, amended: `buildContext` returns exactly `"No relevant context
found."` on the empty sequence; on a non-empty sequence it renders every
chunk, in the order given, as `[Chunk <chunk_index+1>]` — with a
` (similarity: <pct>%)` annotation inside the brackets only when a non-zero
similarity is present — followed on the next line by the chunk content,
blocks joined by the separator `"\n\n---\n\n"`. -/
theorem c9_build_context_amended (chunks : List ScoredChunk) :
    (chunks = [] → buildContext chunks = "No relevant context found.") ∧
    (chunks ≠ [] → buildContext chunks =
      joinWith "\n\n---\n\n" (chunks.map (fun c =>
        specRenderBlock c.chunk.chunk_index c.similarity c.chunk.content))) := by
  constructor
  · intro h
    simp [buildContext, h]
  · intro h
    rw [buildContext, if_neg h]
    congr 1
    exact List.map_congr_left (fun c _ => renderChunk_eq_specRenderBlock c)

/-- C9, witness for the amended theorem: the empty case, and a singleton
with similarity `1/2` rendered as a labeled block. -/
theorem c9_witness :
    buildContext [] = "No relevant context found." ∧
    buildContext [⟨⟨2, "abc", [], 4⟩, some (1/2)⟩] =
      joinWith "\n\n---\n\n" ([(⟨⟨2, "abc", [], 4⟩, some (1/2)⟩ : ScoredChunk)].map
        (fun c => specRenderBlock c.chunk.chunk_index c.similarity c.chunk.content)) :=
  ⟨(c9_build_context_amended []).1 rfl,
   (c9_build_context_amended [⟨⟨2, "abc", [], 4⟩, some (1/2)⟩]).2 (by simp)⟩

/-! ### C1 — the validation gate before persisting (corrected)

The count check does run before the `documents` insert (and, since the
embeddings array is built by mapping the chunks, a count mismatch cannot
actually occur).  The *dimension* check, however, runs *after* the Document
row has been inserted, and the `throw` it raises is answered by the `catch`
with a plain 500 — no cleanup: the Document row remains (with zero chunk
rows). -/

/-- C1, counterexample: a single chunk whose embedding has dimension 1
(≠ 1536) aborts the ingestion — but the Document row has already been
committed and remains in the store afterward, contradicting "no Document row
... for that attempt remains". -/
theorem c1_counterexample :
    (uploadFlow [['h', 'i']] (fun _ => [0]) false 7 "doc" (fun _ => false)
      false false ⟨[], []⟩).2 = .uploadError ∧
    (uploadFlow [['h', 'i']] (fun _ => [0]) false 7 "doc" (fun _ => false)
      false false ⟨[], []⟩).1.documents = [⟨7, "doc", ['h', 'i'], 1⟩] ∧
    ([⟨7, "doc", ['h', 'i'], 1⟩] : List DocRow) ≠ [] :=
  ⟨rfl, rfl, by decide⟩

/-- C1, amended: the embedding count always equals the chunk count (the
embeddings array is built by mapping the chunks), so that arm of the gate
cannot fire; and if any embedding vector does not have dimension 1536 the
ingestion aborts to a failure result before any chunk row is written — but
after the Document row has been committed, which is left in the store (no
cleanup on this path). -/
theorem c1_validation_gate_amended (chunks : List (List Char))
    (embed : List Char → List ℚ) (newDocId : Nat) (name : String)
    (batchFails : Nat → Bool) (docDeleteFails chunkDeleteFails : Bool)
    (store : Store)
    (hdim : (chunks.map embed).any (fun e => e.length ≠ 1536) = true) :
    (chunks.map embed).length = chunks.length ∧
    uploadFlow chunks embed false newDocId name batchFails docDeleteFails
        chunkDeleteFails store =
      (⟨store.documents ++ [⟨newDocId, name, joinNN chunks, chunks.length⟩],
        store.chunks⟩, .uploadError) := by
  refine ⟨List.length_map chunks embed, ?_⟩
  unfold uploadFlow
  rw [if_neg (by simp), if_neg (by simp), if_neg (by simp), if_pos hdim]

/-- C1, witness for the amended theorem: one chunk, embedding dimension 1. -/
theorem c1_witness :
    (([['h']] : List (List Char)).map (fun _ => ([0] : List ℚ))).length =
      ([['h']] : List (List Char)).length ∧
    uploadFlow [['h']] (fun _ => [0]) false 3 "n" (fun _ => false) false false
        ⟨[], []⟩ =
      (⟨[] ++ [⟨3, "n", joinNN [['h']], 1⟩], []⟩, .uploadError) :=
  c1_validation_gate_amended [['h']] (fun _ => [0]) 3 "n" (fun _ => false)
    false false ⟨[], []⟩ (by decide)

/-! ### C2 — rollback after a chunk-batch failure (corrected)

On a failing `document_chunks` batch the route does issue a `documents`
delete by id and a `document_chunks` delete by document id before responding
`CHUNKS_ERROR` — but both deletes are best-effort: they sit in a `try` whose
`catch` only logs, and their supabase error results are discarded.  When a
cleanup delete itself fails, its rows remain: the orphaned
Document-without-chunks the claim rules out can survive the rollback. -/

/-- C2, counterexample: one chunk with a valid embedding, the first chunk
batch fails, and the `documents` cleanup delete fails (its error is logged
and ignored): the route responds `CHUNKS_ERROR`, yet the committed Document
row is still in the store afterward — an orphaned Document-without-chunks
remains. -/
theorem c2_counterexample :
    uploadFlow [['a']] (fun _ => List.replicate 1536 0) false 1 "d"
      (fun _ => true) true false ⟨[], []⟩ =
      (⟨[⟨1, "d", ['a'], 1⟩], []⟩, .chunksError 0) ∧
    ([⟨1, "d", ['a'], 1⟩] : List DocRow) ≠ [] :=
  ⟨by decide, by decide⟩

theorem insertBatchesF_fail_clean (batchFails : Nat → Bool) (docId : Nat) :
    ∀ fuel (rows : List ChunkRow) i store store2 j,
      insertBatchesF batchFails false false docId fuel rows i store =
        (store2, some j) →
      (∀ d ∈ store2.documents, d.id ≠ docId) ∧
      (∀ c ∈ store2.chunks, c.document_id ≠ docId) := by
  intro fuel
  induction fuel with
  | zero =>
    intro rows i store store2 j h
    cases rows <;> simp [insertBatchesF] at h
  | succ n ih =>
    intro rows i store store2 j h
    cases rows with
    | nil => simp [insertBatchesF] at h
    | cons r rs =>
      unfold insertBatchesF at h
      by_cases hb : batchFails i
      · rw [if_pos hb] at h
        cases h
        constructor
        · intro d hd
          simp only [cleanupStore, Bool.false_eq_true, if_false] at hd
          simpa using (List.mem_filter.mp hd).2
        · intro c hc
          simp only [cleanupStore, Bool.false_eq_true, if_false] at hc
          simpa using (List.mem_filter.mp hc).2
      · rw [if_neg hb] at h
        exact ih _ _ _ _ _ h

/-- C2, amended: whenever the upload flow reports `CHUNKS_ERROR` (a
chunk-batch insert failed after the Document row was committed) *and both
best-effort cleanup deletes succeed*, the resulting store contains no
document row with the new document's id and no chunk row pointing at it.
If a cleanup delete fails, its error is logged and ignored and the rows may
remain (see `c2_counterexample`). -/
theorem c2_rollback_amended (chunks : List (List Char))
    (embed : List Char → List ℚ) (newDocId : Nat) (name : String)
    (batchFails : Nat → Bool) (store store2 : Store) (i : Nat)
    (h : uploadFlow chunks embed false newDocId name batchFails false false
      store = (store2, .chunksError i)) :
    (∀ d ∈ store2.documents, d.id ≠ newDocId) ∧
    (∀ c ∈ store2.chunks, c.document_id ≠ newDocId) := by
  unfold uploadFlow at h
  rw [if_neg (by simp), if_neg (by simp), if_neg (by simp)] at h
  by_cases hdim : (chunks.map embed).any (fun e => e.length ≠ 1536) = true
  · rw [if_pos hdim] at h
    cases h
  · rw [if_neg hdim] at h
    rcases e : insertBatches batchFails false false newDocId
        (chunkInserts newDocId chunks (chunks.map embed)) 0
        ⟨store.documents ++ [⟨newDocId, name, joinNN chunks, chunks.length⟩],
          store.chunks⟩ with ⟨s2, failed⟩
    rw [e] at h
    cases failed with
    | none => cases h
    | some j =>
      simp only at h
      cases h
      exact insertBatchesF_fail_clean batchFails newDocId _ _ _ _ _ _ e

/-- C2, witness for the amended theorem: one chunk, valid embedding, first
batch fails, both cleanup deletes succeed — the final store is empty of the
document and its chunks. -/
theorem c2_witness :
    (∀ d ∈ (⟨[], []⟩ : Store).documents, d.id ≠ 1) ∧
    (∀ c ∈ (⟨[], []⟩ : Store).chunks, c.document_id ≠ 1) :=
  c2_rollback_amended [['a']] (fun _ => List.replicate 1536 0) 1 "d"
    (fun _ => true) ⟨[], []⟩ ⟨[], []⟩ 0 (by decide)

/-! ### C10 — the Document's `content` is the chunks joined with `"\n\n"`
(confirmed)

The route stores `content: chunks.join('\n\n')` — the chunk strings joined
with a double newline, not the normalized source text.  Since consecutive
chunks carry the overlap region at their seam, a shared overlap appears
twice in the stored content, on both sides of one separator. -/

theorem joinNN_cons_of_ne_nil (c : List Char) (rest : List (List Char))
    (h : rest ≠ []) : joinNN (c :: rest) = c ++ '\n' :: '\n' :: joinNN rest := by
  cases rest with
  | nil => exact absurd rfl h
  | cons r rs => rfl

/-- A region that ends one chunk and starts the next appears twice in the
joined content, around one `"\n\n"` separator. -/
theorem joinNN_overlap_twice (pre post : List (List Char))
    (a b u ov w : List Char) (ha : a = u ++ ov) (hb : b = ov ++ w) :
    ∃ x z, joinNN (pre ++ a :: b :: post) =
      x ++ (ov ++ '\n' :: '\n' :: ov) ++ z := by
  induction pre with
  | nil =>
    subst ha hb
    cases post with
    | nil =>
      exact ⟨u, w, by simp [joinNN, List.append_assoc]⟩
    | cons p ps =>
      refine ⟨u, w ++ '\n' :: '\n' :: joinNN (p :: ps), ?_⟩
      rw [List.nil_append,
        joinNN_cons_of_ne_nil _ _ (by simp),
        joinNN_cons_of_ne_nil _ _ (by simp)]
      simp [List.append_assoc]
  | cons c cs ih =>
    obtain ⟨x, z, hxz⟩ := ih
    refine ⟨c ++ '\n' :: '\n' :: x, z, ?_⟩
    rw [List.cons_append, joinNN_cons_of_ne_nil _ _ (by simp), hxz]
    simp [List.append_assoc]

/-- With no batch failing, the batch loop appends every row in order and
reports no failure (the cleanup-delete outcomes are never consulted). -/
theorem insertBatchesF_all_ok (docDeleteFails chunkDeleteFails : Bool)
    (docId : Nat) :
    ∀ fuel (rows : List ChunkRow) i store, rows.length ≤ fuel →
      insertBatchesF (fun _ => false) docDeleteFails chunkDeleteFails docId
          fuel rows i store =
        (⟨store.documents, store.chunks ++ rows⟩, none) := by
  intro fuel
  induction fuel with
  | zero =>
    intro rows i store hle
    have : rows = [] := List.length_eq_zero.mp (Nat.le_zero.mp hle)
    subst this
    simp [insertBatchesF]
  | succ n ih =>
    intro rows i store hle
    cases rows with
    | nil => simp [insertBatchesF]
    | cons r rs =>
      unfold insertBatchesF
      rw [if_neg (by simp)]
      rw [ih ((r :: rs).drop 50) (i + 50)
        ⟨store.documents, store.chunks ++ (r :: rs).take 50⟩
        (by simp only [List.length_drop, List.length_cons] at *; omega)]
      simp [List.append_assoc, List.take_append_drop]

/-- C10: for every ingestion in which all embeddings have dimension 1536 and
every store write succeeds, the flow succeeds and the persisted Document row
carries `content = joinNN chunks` (the chunk strings joined with `"\n\n"`),
not the normalized source text; and whenever consecutive chunks share an
overlap region `ov` (a suffix of one and prefix of the next), that region
occurs twice in the stored content, around one separator. -/
theorem c10_content_joined_chunks (chunks : List (List Char))
    (embed : List Char → List ℚ) (newDocId : Nat) (name : String)
    (docDeleteFails chunkDeleteFails : Bool) (store : Store)
    (hdim : (chunks.map embed).any (fun e => e.length ≠ 1536) = false) :
    uploadFlow chunks embed false newDocId name (fun _ => false)
        docDeleteFails chunkDeleteFails store =
      (⟨store.documents ++ [⟨newDocId, name, joinNN chunks, chunks.length⟩],
        store.chunks ++ chunkInserts newDocId chunks (chunks.map embed)⟩,
       .success newDocId) ∧
    (⟨newDocId, name, joinNN chunks, chunks.length⟩ : DocRow) ∈
      (store.documents ++ [⟨newDocId, name, joinNN chunks, chunks.length⟩]) ∧
    (∀ pre post a b u ov w, chunks = pre ++ a :: b :: post → a = u ++ ov →
      b = ov ++ w →
      ∃ x z, joinNN chunks = x ++ (ov ++ '\n' :: '\n' :: ov) ++ z) := by
  refine ⟨?_, List.mem_append_right _ (List.mem_singleton.mpr rfl), ?_⟩
  · unfold uploadFlow
    rw [if_neg (by simp), if_neg (by simp), if_neg (by simp),
      if_neg (by rw [hdim]; exact Bool.false_ne_true)]
    rw [show insertBatches (fun _ => false) docDeleteFails chunkDeleteFails
        newDocId (chunkInserts newDocId chunks (chunks.map embed)) 0
        ⟨store.documents ++ [⟨newDocId, name, joinNN chunks, chunks.length⟩],
          store.chunks⟩ =
      (⟨store.documents ++ [⟨newDocId, name, joinNN chunks, chunks.length⟩],
        store.chunks ++ chunkInserts newDocId chunks (chunks.map embed)⟩, none)
      from insertBatchesF_all_ok docDeleteFails chunkDeleteFails newDocId _ _
        0 _ (Nat.le_refl _)]
  · intro pre post a b u ov w hchunks ha hb
    rw [hchunks]
    exact joinNN_overlap_twice pre post a b u ov w ha hb

/-- C10, witness: two chunks `"ab"` and `"bc"` overlapping in `"b"`; the
stored content is `"ab\n\nbc"`, in which `"b"` occurs on both sides of the
separator. -/
theorem c10_witness :
    uploadFlow [['a', 'b'], ['b', 'c']] (fun _ => List.replicate 1536 0)
      false 1 "d" (fun _ => false) false false ⟨[], []⟩ =
      (⟨[] ++ [⟨1, "d", joinNN [['a', 'b'], ['b', 'c']], 2⟩],
        [] ++ chunkInserts 1 [['a', 'b'], ['b', 'c']]
          ([['a', 'b'], ['b', 'c']].map (fun _ => List.replicate 1536 (0 : ℚ)))⟩,
       .success 1) ∧
    ∃ x z, joinNN [['a', 'b'], ['b', 'c']] =
      x ++ (['b'] ++ '\n' :: '\n' :: ['b']) ++ z := by
  obtain ⟨h1, _, h3⟩ := c10_content_joined_chunks [['a', 'b'], ['b', 'c']]
    (fun _ => List.replicate 1536 0) 1 "d" false false ⟨[], []⟩ (by decide)
  exact ⟨h1, h3 [] [] ['a', 'b'] ['b', 'c'] ['a'] ['b'] ['c'] rfl rfl rfl⟩

end DocChat
